import Mathlib

/-!
Verification development for the `koishi-plugin-apexrankwatch` repository
(`src/index.ts`): a poll-detect-notify loop that tracks Apex Legends rank
scores per chat group, with anomaly filtering, a retrying fetch routine,
and add/remove/list subscription operations.

The TypeScript source is shallowly embedded below: pure functions become
Lean functions, the mutable registry becomes explicit state passing, the
network and the clock become explicit parameters, and the side effects of
one reconciliation step (fetch, snapshot mutation, persistence, group
notification) are recorded as an explicit event list in program order.
-/

namespace ApexRankWatch

/-- JavaScript `a || b` on strings: the empty string is falsy. -/
def jsOr (a b : String) : String := if a = "" then b else a

/-- JavaScript `a || b` on numbers: `0` is falsy. -/
def jsOrInt (a b : Int) : Int := if a = 0 then b else a

/-- `s.toLowerCase()` as a character list (ASCII case folding). -/
def lowerChars (s : String) : List Char := s.data.map Char.toLower

/-- Whether `pre` is a prefix of `l`. -/
def prefixOf : List Char → List Char → Bool
  | [], _ => true
  | _ :: _, [] => false
  | a :: as, b :: bs => if a = b then prefixOf as bs else false

/-- Whether `needle` occurs as a contiguous substring of the second list
(JavaScript `String.prototype.includes`). -/
def hasSubstring (needle : List Char) : List Char → Bool
  | [] => needle.isEmpty
  | c :: rest => prefixOf needle (c :: rest) || hasSubstring needle rest

/-- `containsPattern` from the source: case-insensitive substring test. -/
def containsPattern (text pattern : String) : Bool :=
  hasSubstring (lowerChars pattern) (lowerChars text)

/-- JavaScript `String.prototype.trim` on a character list. -/
def trimChars (l : List Char) : List Char :=
  ((l.dropWhile Char.isWhitespace).reverse.dropWhile Char.isWhitespace).reverse

/-- JavaScript `String.prototype.split(',')` on a character list. -/
def splitOnComma : List Char → List (List Char)
  | [] => [[]]
  | c :: rest =>
    let r := splitOnComma rest
    if c = ',' then [] :: r
    else
      match r with
      | [] => [[c]]
      | h :: t => (c :: h) :: t

/-- `isBlacklisted` from the source: lowercase the comma-separated blacklist,
trim each entry, and test membership of the lowercased player name. -/
def isBlacklisted (playerName blacklist : String) : Bool :=
  if trimChars blacklist.data = [] then false
  else
    ((splitOnComma (lowerChars blacklist)).map trimChars).any
      (fun entry => decide (entry = lowerChars playerName))

/-- First-match association-list lookup (JavaScript object property read). -/
def alookup {α : Type} (k : String) : List (String × α) → Option α
  | [] => none
  | (k', v) :: rest => if k' = k then some v else alookup k rest

/-- The `nameMap` translation table from the source. -/
def nameMap : List (String × String) :=
  [("Unranked", "菜鸟"), ("Bronze", "青铜"), ("Silver", "白银"), ("Gold", "黄金"),
   ("Platinum", "白金"), ("Diamond", "钻石"), ("Master", "大师"), ("Apex Predator", "Apex 猎杀者"),
   ("offline", "离线"), ("online", "在线"), ("inLobby", "在大厅"), ("in Lobby", "在大厅"),
   ("In lobby", "在大厅"), ("inMatch", "比赛中"), ("in Match", "比赛中"), ("In match", "比赛中"),
   ("Offline", "离线"), ("Online", "在线"), ("true", "是"), ("false", "否"),
   ("Bloodhound", "寻血猎犬"), ("Gibraltar", "直布罗陀"), ("Lifeline", "命脉"),
   ("Pathfinder", "探路者"), ("Wraith", "恶灵"), ("Bangalore", "班加罗尔"),
   ("Caustic", "侵蚀"), ("Mirage", "幻象"), ("Octane", "动力小子"), ("Wattson", "沃特森"),
   ("Crypto", "密客"), ("Revenant", "亡灵"), ("Loba", "罗芭"), ("Rampart", "兰伯特"),
   ("Horizon", "地平线"), ("Fuse", "暴雷"), ("Valkyrie", "瓦尔基里"), ("Seer", "希尔"),
   ("Ash", "艾许"), ("Mad Maggie", "疯玛吉"), ("Newcastle", "纽卡斯尔"), ("Vantage", "万蒂奇"),
   ("Catalyst", "卡特莉丝"), ("Ballistic", "弹道"), ("Conduit", "导管"), ("Alter", "变幻"),
   ("Sparrow", "琉雀")]

/-- The `legendRankMap` tier table from the source. -/
def legendRankMap : List (String × String) :=
  [("罗芭", "S"), ("地平线", "S"), ("动力小子", "S"), ("瓦尔基里", "A"), ("命脉", "A"),
   ("恶灵", "A"), ("探路者", "A"), ("艾许", "B"), ("希尔", "B"), ("密客", "B"),
   ("沃特森", "B"), ("寻血猎犬", "B"), ("班加罗尔", "C"), ("纽卡斯尔", "C"), ("暴雷", "C"),
   ("直布罗陀", "C"), ("弹道", "D"), ("侵蚀", "D"), ("亡灵", "D"), ("疯玛吉", "D"),
   ("幻象", "D"), ("兰伯特", "D"), ("导管", "D"), ("卡特莉丝", "D"), ("万蒂奇", "D"),
   ("变幻", "C"), ("琉雀", "B")]

/-- `translate` from the source: `nameMap[name] || name`. -/
def translate (name : String) : String := (alookup name nameMap).getD name

/-- `getLegendRank` from the source: `legendRankMap[legendName] || '未知'`. -/
def getLegendRank (legendName : String) : String :=
  (alookup legendName legendRankMap).getD "未知"

/-- Consume a maximal (possibly empty) digit prefix, returning it with the rest. -/
def takeDigits : List Char → List Char × List Char
  | [] => ([], [])
  | c :: rest =>
    if c.isDigit then
      let p := takeDigits rest
      (c :: p.1, p.2)
    else ([], c :: rest)

/-- Attempt to match `\d+:\d+` followed by the two trailing `$` end anchors of
the source regex `/$(\d+:\d+)$$/`, returning the captured text. -/
def captureFrom (l : List Char) : Option (List Char) :=
  match takeDigits l with
  | ([], _) => none
  | (d1, rest1) =>
    match rest1 with
    | ':' :: rest2 =>
      match takeDigits rest2 with
      | ([], _) => none
      | (d2, rest3) => if rest3.isEmpty then some (d1 ++ ':' :: d2) else none
    | _ => none

/-- Search semantics of the source regex `/$(\d+:\d+)$$/` (from
`getPlayerStats`): try each start position in order; the leading `$` anchor
only succeeds at the end of the input, after which the digit group must
still match.  Returns the match position and the captured group. -/
def findTimeMatch (s : List Char) : Option (Nat × List Char) :=
  (((List.range (s.length + 1)).filterMap fun i =>
      if i = s.length then (captureFrom (List.drop i s)).map fun t => (i, t)
      else none)).head?

/-- The time-annotation extraction step of `getPlayerStats`: on a regex match,
build ``` (mm:ss)``` and remove the matched text from the state (then trim);
otherwise leave the state unchanged with no time info. -/
def stripTimeInfo (s : String) : String × String :=
  match findTimeMatch s.data with
  | some (i, t) =>
    (" (" ++ String.mk t ++ ")",
     String.mk (trimChars (List.take i s.data ++ List.drop (i + t.length) s.data)))
  | none => ("", s)

/-- Plugin configuration (the fields the core logic reads), with the
defaults declared in the source schema. -/
structure Config where
  checkInterval : Nat := 2
  maxRetries : Nat := 3
  timeout : Nat := 10000
  maxScoreDropThreshold : Int := 2000
  minValidScore : Int := 1
  blacklist : String := ""
deriving Repr, DecidableEq

/-- The relevant fields of one raw API response (`data.global`,
`data.global.rank`, `data.realtime`).  Missing string fields are modelled as
`""` (falsy), missing numeric fields as `0`, matching the `||` defaulting in
the source. -/
structure RawResponse where
  rankScore : Int
  rankName : String
  rankDiv : Int
  percentGlobal : String
  isOnline : Int
  selectedLegend : String
  currentStateAsText : String
  currentState : String
deriving Repr, DecidableEq

/-- The observation produced by `getPlayerStats` (the fields consumed by the
reconciliation loop and the commands). -/
structure PlayerStats where
  rankScore : Int
  rankName : String
  rankDiv : Int
  globalRankPercent : String
  isOnline : String
  selectedLegend : String
  legendRank : String
  currentState : String
  isInLobbyOrMatch : Bool
deriving Repr, DecidableEq

/-- The response-processing part of `getPlayerStats` from the source
(the network transport is factored out as the `raw` argument). -/
def getPlayerStats (raw : RawResponse) : PlayerStats :=
  let isOnlineStatus := if raw.isOnline = 1 then "在线" else "离线"
  let globalRankPercent := jsOr raw.percentGlobal "未知"
  let selectedLegend := translate (jsOr raw.selectedLegend "")
  let legendRank := getLegendRank selectedLegend
  let state0 := jsOr (jsOr raw.currentStateAsText raw.currentState) "offline"
  let stripped := stripTimeInfo state0
  let timeInfo := stripped.1
  let currentState := stripped.2
  let translatedState := translate currentState ++ timeInfo
  { rankScore := jsOrInt raw.rankScore 0
    rankName := translate (jsOr raw.rankName "Unranked")
    rankDiv := jsOrInt raw.rankDiv 0
    globalRankPercent := globalRankPercent
    isOnline := isOnlineStatus
    selectedLegend := selectedLegend
    legendRank := legendRank
    currentState := translatedState
    isInLobbyOrMatch := containsPattern currentState "lobby" || containsPattern currentState "match" }

/-- A stored snapshot of one tracked player (`PlayerData` in the source).
The optional fields are modelled as strings with `""` for "absent". -/
structure PlayerData where
  playerName : String
  rankScore : Int
  rankName : String
  rankDiv : Int
  lastChecked : Nat
  globalRankPercent : String
  selectedLegend : String
  legendRank : String
deriving Repr, DecidableEq

/-- One line of the rank-change notification message assembled by the
reconciliation loop; `renderMsgLine` gives the literal text. -/
inductive MsgLine
  | header
  | date (s : String)
  | playerLine (s : String)
  | oldScoreLine (n : Int)
  | newScoreLine (n : Int)
  | rankLine (rankName : String) (rankDiv : Int)
  | deltaLine (diff : Int)
  | percentLine (s : String)
  | legendLine (legend : String) (tier : Option String)
  | stateLine (s : String)
deriving Repr, DecidableEq

/-- The literal text of each message line as concatenated in the source. -/
def renderMsgLine : MsgLine → String
  | .header => "📈 Apex 排位分数变化"
  | .date s => "📅 " ++ s
  | .playerLine s => "👤 " ++ s
  | .oldScoreLine n => "🔢 原分数：" ++ toString n
  | .newScoreLine n => "🔢 当前分数：" ++ toString n
  | .rankLine rankName rankDiv =>
    "🏆 段位：" ++ (if rankDiv ≠ 0 then rankName ++ " " ++ toString rankDiv else rankName)
  | .deltaLine diff =>
    "📊 变动：" ++ (if diff > 0 then "上升 " ++ toString diff else "下降 " ++ toString (-diff)) ++ " 分"
  | .percentLine s => "🌎 全球排名：前 " ++ s ++ "%"
  | .legendLine legend none => "🎮 当前英雄：" ++ legend
  | .legendLine legend (some tier) => "🎮 当前英雄：" ++ legend ++ " (" ++ tier ++ "级)"
  | .stateLine s => "🎯 当前状态：" ++ s

/-- A message sent to a group: either the reconciliation loop's rank-change
notification or the add command's confirmation test message. -/
inductive Notification
  | rankChange (lines : List MsgLine)
  | addConfirm (playerName : String)
deriving Repr, DecidableEq

/-- Side effects of the embedded operations, recorded in program order:
an outgoing API fetch, an in-memory snapshot mutation, a group notification
attempt (`sendGroupMessage`), and a `saveGroupData` persistence call. -/
inductive Eff
  | fetch (playerName : String)
  | mutate (playerKey : String)
  | notify (groupId : String) (message : Notification)
  | persist
deriving Repr, DecidableEq

def effIsMutate : Eff → Bool
  | .mutate _ => true
  | _ => false

def effIsNotify : Eff → Bool
  | .notify _ _ => true
  | _ => false

def effIsPersist : Eff → Bool
  | .persist => true
  | _ => false

/-- Whether some event satisfying `p` occurs strictly before some event
satisfying `q` in the event list. -/
def occursBeforeB (p q : Eff → Bool) : List Eff → Bool
  | [] => false
  | e :: rest => (p e && rest.any q) || occursBeforeB p q rest

/-- The rank-change notification body built by the reconciliation loop
(lines 569-594 of the source), as structured lines: seven unconditional
lines, then the global-percentile line, the current-legend line (online
only) and the current-state line (online only), each under the source's
condition. -/
def buildChangeMessage (dateStr : String) (player : PlayerData) (oldScore newScore : Int)
    (stats : PlayerStats) : List MsgLine :=
  [MsgLine.header, MsgLine.date dateStr, MsgLine.playerLine player.playerName,
   MsgLine.oldScoreLine oldScore, MsgLine.newScoreLine newScore,
   MsgLine.rankLine player.rankName player.rankDiv,
   MsgLine.deltaLine (newScore - oldScore)]
  ++ (if stats.globalRankPercent ≠ "" ∧ stats.globalRankPercent ≠ "未知" then
        [MsgLine.percentLine stats.globalRankPercent]
      else [])
  ++ (if stats.isOnline = "在线" ∧ stats.selectedLegend ≠ "" then
        [MsgLine.legendLine stats.selectedLegend
          (if stats.legendRank ≠ "" ∧ stats.legendRank ≠ "未知" then some stats.legendRank else none)]
      else [])
  ++ (if stats.isOnline = "在线" ∧ stats.currentState ≠ "" then
        [MsgLine.stateLine stats.currentState]
      else [])

/-- The in-place snapshot mutation performed on a rank change
(lines 556-562 of the source). -/
def applyStats (p : PlayerData) (stats : PlayerStats) (now : Nat) : PlayerData :=
  { p with
    rankScore := stats.rankScore
    rankName := stats.rankName
    rankDiv := stats.rankDiv
    globalRankPercent := stats.globalRankPercent
    selectedLegend := stats.selectedLegend
    legendRank := stats.legendRank
    lastChecked := now }

/-- One player of one reconciliation pass (the body of the `setInterval`
callback, lines 536-611): skip if blacklisted; fetch (a failed fetch is
caught and logged); compare scores; on a valid, non-anomalous, changed score
mutate the snapshot, attempt the notification, then persist; otherwise only
log.  `fetchResult` stands for the outcome of `getPlayerStats`. -/
def reconcilePlayer (cfg : Config) (groupId playerKey : String) (player : PlayerData)
    (fetchResult : Except Unit PlayerStats) (now : Nat) (dateStr : String) :
    PlayerData × List Eff :=
  if isBlacklisted player.playerName cfg.blacklist then (player, [])
  else
    match fetchResult with
    | .error _ => (player, [Eff.fetch player.playerName])
    | .ok playerData =>
      let newRankScore := playerData.rankScore
      let oldRankScore := player.rankScore
      let isValidScore := newRankScore ≥ cfg.minValidScore
      let diff := newRankScore - oldRankScore
      let isDroppingTooMuch := diff < 0 ∧ |diff| > cfg.maxScoreDropThreshold
      if isValidScore ∧ ¬isDroppingTooMuch ∧ newRankScore ≠ oldRankScore then
        let updated := applyStats player playerData now
        let msg := buildChangeMessage dateStr updated oldRankScore newRankScore playerData
        (updated,
         [Eff.fetch player.playerName, Eff.mutate playerKey,
          Eff.notify groupId (Notification.rankChange msg), Eff.persist])
      else (player, [Eff.fetch player.playerName])

/-- The four-way observation classification, written from the specification
text (§4.2): `Invalid` when the new score is below `minValidScore`,
`AnomalousDrop` on a drop exceeding `maxDropThreshold`, `Unchanged` on an
equal score, `Changed` otherwise. -/
inductive RankDelta
  | Invalid
  | AnomalousDrop
  | Unchanged
  | Changed
deriving Repr, DecidableEq

/-- Modelled from the spec: the `RankDeltaClassifier` decision function of
§4.2, stated in the spec's own case order, for comparison with the branch
structure of the reconciliation callback. -/
def classifySpec (oldScore newScore minValidScore maxDropThreshold : Int) : RankDelta :=
  if newScore < minValidScore then RankDelta.Invalid
  else if newScore < oldScore ∧ oldScore - newScore > maxDropThreshold then RankDelta.AnomalousDrop
  else if newScore = oldScore then RankDelta.Unchanged
  else RankDelta.Changed

/-- One chat group's subscription record. -/
structure GroupSub where
  groupId : String
  players : List (String × PlayerData)
deriving Repr, DecidableEq

/-- The registry mapping group ids to subscriptions, in insertion order
(JavaScript object key order). -/
abbrev Registry := List (String × GroupSub)

/-- Overwrite-in-place of an existing key. -/
def mapReplace {α : Type} (l : List (String × α)) (k : String) (v : α) : List (String × α) :=
  l.map fun p => if p.1 = k then (k, v) else p

/-- JavaScript object property write: overwrite an existing key in place,
otherwise append the new key preserving iteration order. -/
def setEntry {α : Type} (l : List (String × α)) (k : String) (v : α) : List (String × α) :=
  if (alookup k l).isSome then mapReplace l k v else l ++ [(k, v)]

/-- JavaScript `delete obj[k]`. -/
def removeEntry {α : Type} (l : List (String × α)) (k : String) : List (String × α) :=
  l.filter fun p => decide (p.1 ≠ k)

/-- Result of the `apexrank` query command. -/
inductive QueryResult
  | blacklistError (playerName : String)
  | invalidScore (score : Int)
  | ok (stats : PlayerStats)
  | fetchFailed
deriving Repr, DecidableEq

/-- The `apexrank` query command (lines 351-377): blacklist check before any
network call, then fetch, then the minimum-valid-score check. -/
def apexrankQuery (cfg : Config) (playerName : String)
    (fetchResult : Except Unit PlayerStats) : QueryResult × List Eff :=
  if isBlacklisted playerName cfg.blacklist then (QueryResult.blacklistError playerName, [])
  else
    match fetchResult with
    | .error _ => (QueryResult.fetchFailed, [Eff.fetch playerName])
    | .ok stats =>
      if stats.rankScore < cfg.minValidScore then
        (QueryResult.invalidScore stats.rankScore, [Eff.fetch playerName])
      else (QueryResult.ok stats, [Eff.fetch playerName])

/-- Result of the `apexrankwatch` add command. -/
inductive AddResult
  | blacklistError
  | invalidScore (score : Int)
  | alreadyTracked
  | ok
  | fetchFailed
deriving Repr, DecidableEq

/-- The snapshot inserted for a newly tracked player (lines 419-428). -/
def mkPlayerData (playerName : String) (stats : PlayerStats) (now : Nat) : PlayerData :=
  { playerName := playerName
    rankScore := stats.rankScore
    rankName := stats.rankName
    rankDiv := stats.rankDiv
    lastChecked := now
    globalRankPercent := stats.globalRankPercent
    selectedLegend := stats.selectedLegend
    legendRank := stats.legendRank }

/-- The `apexrankwatch` add command (lines 380-440): blacklist check before
any network call; fetch; minimum-score check; create the group record if
absent; reject an already tracked (lowercased) key; otherwise insert the
snapshot, persist, then send the best-effort confirmation message. -/
def apexrankwatchAdd (cfg : Config) (reg : Registry) (groupId playerName : String)
    (fetchResult : Except Unit PlayerStats) (now : Nat) :
    Registry × AddResult × List Eff :=
  if isBlacklisted playerName cfg.blacklist then (reg, AddResult.blacklistError, [])
  else
    match fetchResult with
    | .error _ => (reg, AddResult.fetchFailed, [Eff.fetch playerName])
    | .ok stats =>
      if stats.rankScore < cfg.minValidScore then
        (reg, AddResult.invalidScore stats.rankScore, [Eff.fetch playerName])
      else
        let playerKey := String.mk (lowerChars playerName)
        let reg1 :=
          if (alookup groupId reg).isSome then reg
          else setEntry reg groupId { groupId := groupId, players := [] }
        let group := (alookup groupId reg1).getD { groupId := groupId, players := [] }
        if (alookup playerKey group.players).isSome then
          (reg1, AddResult.alreadyTracked, [Eff.fetch playerName])
        else
          let group1 : GroupSub :=
            { group with players := setEntry group.players playerKey (mkPlayerData playerName stats now) }
          (setEntry reg1 groupId group1, AddResult.ok,
           [Eff.fetch playerName, Eff.persist, Eff.notify groupId (Notification.addConfirm playerName)])

/-- Result of the `apexrankremove` command. -/
inductive RemoveResult
  | removed
  | notFound
deriving Repr, DecidableEq

/-- The `apexrankremove` command (lines 494-526): case-insensitive key match;
delete the entry; delete the whole group when its player map becomes empty;
persist. -/
def apexrankremove (reg : Registry) (groupId playerName : String) :
    Registry × RemoveResult × List Eff :=
  let playerKey := String.mk (lowerChars playerName)
  match alookup groupId reg with
  | none => (reg, RemoveResult.notFound, [])
  | some group =>
    match alookup playerKey group.players with
    | none => (reg, RemoveResult.notFound, [])
    | some _ =>
      let players1 := removeEntry group.players playerKey
      let reg1 :=
        if players1 = [] then removeEntry reg groupId
        else setEntry reg groupId { group with players := players1 }
      (reg1, RemoveResult.removed, [Eff.persist])

/-- One group of one reconciliation pass: process each tracked player in
order, accumulating events; the per-player fetch outcome is supplied by the
oracle `fetch` keyed by the stored display name. -/
def reconcileGroup (cfg : Config) (groupId : String)
    (fetch : String → Except Unit PlayerStats) (now : Nat) (dateStr : String) :
    List (String × PlayerData) → List (String × PlayerData) × List Eff
  | [] => ([], [])
  | (k, p) :: rest =>
    let r := reconcilePlayer cfg groupId k p (fetch p.playerName) now dateStr
    let rs := reconcileGroup cfg groupId fetch now dateStr rest
    ((k, r.1) :: rs.1, r.2 ++ rs.2)

/-- One full reconciliation pass over the registry (the `setInterval`
callback): every group, then every tracked player within the group. -/
def reconcilePass (cfg : Config) (fetch : String → Except Unit PlayerStats)
    (now : Nat) (dateStr : String) : Registry → Registry × List Eff
  | [] => ([], [])
  | (gid, g) :: rest =>
    let rg := reconcileGroup cfg gid fetch now dateStr g.players
    let rs := reconcilePass cfg fetch now dateStr rest
    ((gid, { g with players := rg.1 }) :: rs.1, rg.2 ++ rs.2)

/-- Outcome of one attempt of the raw HTTP request inside
`apiRequestWithRetry`: a response value, or a failure that is either
retriable (`ECONNRESET`/`ETIMEDOUT`/`ECONNABORTED` or HTTP status ≥ 500 or
429) or fatal, tagged with an identifier so that "the last failure" is
observable. -/
inductive Outcome
  | success (v : Nat)
  | failure (transient : Bool) (id : Nat)
deriving Repr, DecidableEq

/-- The backoff wait performed at the top of iteration `attempt` of the retry
loop: `2^attempt * 1000` ms for every retry iteration, nothing for the first
attempt. -/
def ownDelay (attempt : Nat) : List Nat :=
  if 0 < attempt then [2 ^ attempt * 1000] else []

/-- `apiRequestWithRetry` from attempt number `attempt` onward
(lines 215-246): wait `2^attempt * 1000` ms at the top of every retry
iteration, issue the request, and on a retriable failure with remaining
budget continue; otherwise re-throw the failure.  Returns the final outcome
together with the list of backoff delays (in ms) in the order they were
waited. -/
def retryFrom (outcomes : Nat → Outcome) (maxRetries : Nat) (attempt : Nat) :
    Except (Bool × Nat) Nat × List Nat :=
  match outcomes attempt with
  | Outcome.success v => (Except.ok v, ownDelay attempt)
  | Outcome.failure tr id =>
    if _h : tr ∧ attempt < maxRetries then
      let r := retryFrom outcomes maxRetries (attempt + 1)
      (r.1, ownDelay attempt ++ r.2)
    else (Except.error (tr, id), ownDelay attempt)
termination_by maxRetries - attempt

/-- The backoff delays accumulated by `k` consecutive retried failures
starting at attempt `a`. -/
def expectedDelays (a : Nat) : Nat → List Nat
  | 0 => []
  | k + 1 => ownDelay a ++ expectedDelays (a + 1) k

/-- `apiRequestWithRetry`: the attempt loop starting at attempt `0`. -/
def apiRequestWithRetry (outcomes : Nat → Outcome) (maxRetries : Nat) :
    Except (Bool × Nat) Nat × List Nat :=
  retryFrom outcomes maxRetries 0

/-- Registry states reachable from the empty registry through the three
state-mutating operations, for an arbitrary sequence of fetch outcomes. -/
inductive Reach (cfg : Config) : Registry → Prop
  | empty : Reach cfg []
  | add (reg : Registry) (gid name : String) (fr : Except Unit PlayerStats) (now : Nat) :
      Reach cfg reg → Reach cfg (apexrankwatchAdd cfg reg gid name fr now).1
  | remove (reg : Registry) (gid name : String) :
      Reach cfg reg → Reach cfg (apexrankremove reg gid name).1
  | reconcile (reg : Registry) (fetch : String → Except Unit PlayerStats)
      (now : Nat) (dateStr : String) :
      Reach cfg reg → Reach cfg (reconcilePass cfg fetch now dateStr reg).1

/-! Concrete inputs used by witnesses and counterexamples. -/

/-- The default configuration. -/
def cfgEx : Config := {}

/-- A raw response for an online player sitting neither in a lobby nor in a
match (raw activity state `"online"`). -/
def rawEx5 : RawResponse :=
  { rankScore := 150, rankName := "Bronze", rankDiv := 4, percentGlobal := "",
    isOnline := 1, selectedLegend := "Wraith", currentStateAsText := "online",
    currentState := "" }

/-- The observation derived from `rawEx5`. -/
def statsEx : PlayerStats := getPlayerStats rawEx5

/-- A stored snapshot with score 100. -/
def playerEx : PlayerData :=
  { playerName := "p", rankScore := 100, rankName := "青铜", rankDiv := 4,
    lastChecked := 0, globalRankPercent := "未知", selectedLegend := "", legendRank := "" }

/-- A raw response whose activity state carries an `mm:ss` parenthetical
suffix. -/
def rawEx4 : RawResponse :=
  { rankScore := 150, rankName := "Bronze", rankDiv := 4, percentGlobal := "",
    isOnline := 1, selectedLegend := "", currentStateAsText := "In match (00:39)",
    currentState := "" }

def msgIsStateLine : MsgLine → Bool
  | .stateLine _ => true
  | _ => false

/-- Whether an event is a rank-change notification containing a
current-activity-state line. -/
def effHasStateLine : Eff → Bool
  | .notify _ (Notification.rankChange lines) => lines.any msgIsStateLine
  | _ => false

/-- The events of one reconciliation step on `playerEx` with observation
`statsEx` (a genuine rank change). -/
def evsEx : List Eff := (reconcilePlayer cfgEx "g" "k" playerEx (Except.ok statsEx) 7 "d").2

/-- A configuration with a two-entry blacklist. -/
def cfgB : Config := { blacklist := "alice, Bob" }

/-- A snapshot whose display name is blacklisted in `cfgB`. -/
def pdAlice : PlayerData :=
  { playerName := "ALICE", rankScore := 100, rankName := "青铜", rankDiv := 4,
    lastChecked := 0, globalRankPercent := "", selectedLegend := "", legendRank := "" }

/-- A configuration with a negative minimum valid score (the schema does not
constrain `minValidScore`). -/
def cfgNeg : Config := { minValidScore := -10 }

/-- A raw response reporting a negative rank score. -/
def rawNeg : RawResponse :=
  { rankScore := -5, rankName := "Bronze", rankDiv := 4, percentGlobal := "",
    isOnline := 0, selectedLegend := "", currentStateAsText := "", currentState := "" }

/-- The registry obtained by one `add` under `cfgNeg` with the negative-score
observation. -/
def regNeg : Registry := (apexrankwatchAdd cfgNeg [] "g" "p" (Except.ok (getPlayerStats rawNeg)) 0).1

/-- Outcome sequence: three transient failures, then success. -/
def outEx : Nat → Outcome := fun j => if j < 3 then Outcome.failure true j else Outcome.success 7

def pdBad : PlayerData := { playerEx with playerName := "bad" }

def pdOk : PlayerData := { playerEx with playerName := "ok" }

/-- Fetch oracle that fails for player `"bad"` and succeeds otherwise. -/
def fetchW : String → Except Unit PlayerStats :=
  fun n => if n = "bad" then Except.error () else Except.ok statsEx

/-- Fetch oracle that always succeeds. -/
def fetchW2 : String → Except Unit PlayerStats := fun _ => Except.ok statsEx

/-- A registry tracking the failing player and one healthy player. -/
def regW : Registry := [("g", { groupId := "g", players := [("bad", pdBad), ("ok", pdOk)] })]

def pdM : PlayerData := { playerEx with playerName := "m" }

/-- A registry with a single group tracking a single player. -/
def regW7 : Registry := [("g", { groupId := "g", players := [("m", pdM)] })]

/-- A valid observation used by the add-command witnesses. -/
def statsW8 : PlayerStats :=
  { rankScore := 1000, rankName := "黄金", rankDiv := 2, globalRankPercent := "未知",
    isOnline := "离线", selectedLegend := "", legendRank := "未知",
    currentState := "离线", isInLobbyOrMatch := false }

/-- The registry obtained by one default-config `add` from empty. -/
def regW10 : Registry := (apexrankwatchAdd {} [] "g" "p" (Except.ok statsW8) 0).1

/-! Helper lemmas. -/

/-- The code's anomalous-drop test (signed difference and absolute value)
agrees with the spec's formulation. -/
theorem drop_cond_iff (oldS newS thr : Int) :
    (newS - oldS < 0 ∧ |newS - oldS| > thr) ↔ (newS < oldS ∧ oldS - newS > thr) := by
  constructor
  · rintro ⟨h1, h2⟩
    rw [abs_of_neg h1, neg_sub] at h2
    exact ⟨by omega, h2⟩
  · rintro ⟨h1, h2⟩
    have h3 : newS - oldS < 0 := by omega
    rw [abs_of_neg h3, neg_sub]
    exact ⟨h3, h2⟩

/-- The spec classifier returns `Changed` exactly when the code's guard in the
reconciliation callback holds. -/
theorem classify_changed_iff (oldS newS minV thr : Int) :
    classifySpec oldS newS minV thr = RankDelta.Changed ↔
      (newS ≥ minV ∧ ¬(newS - oldS < 0 ∧ |newS - oldS| > thr) ∧ newS ≠ oldS) := by
  rw [drop_cond_iff]
  unfold classifySpec
  split_ifs with h1 h2 h3 <;> simp <;> omega

/-- C1: one reconciliation step for a non-blacklisted tracked player mutates
the stored snapshot, notifies the owning group and persists exactly when the
spec's classifier says `Changed`; on `Invalid`, `AnomalousDrop` and
`Unchanged` the old snapshot (hence the old score) is retained and only the
fetch happens — no mutation, no notification, no persistence. -/
theorem C1_delta_classifier (cfg : Config) (gid k : String) (p : PlayerData)
    (stats : PlayerStats) (now : Nat) (ds : String)
    (hbl : isBlacklisted p.playerName cfg.blacklist = false) :
    (classifySpec p.rankScore stats.rankScore cfg.minValidScore cfg.maxScoreDropThreshold =
        RankDelta.Changed →
      reconcilePlayer cfg gid k p (Except.ok stats) now ds =
        (applyStats p stats now,
         [Eff.fetch p.playerName, Eff.mutate k,
          Eff.notify gid (Notification.rankChange
            (buildChangeMessage ds (applyStats p stats now) p.rankScore stats.rankScore stats)),
          Eff.persist])) ∧
    (classifySpec p.rankScore stats.rankScore cfg.minValidScore cfg.maxScoreDropThreshold ≠
        RankDelta.Changed →
      reconcilePlayer cfg gid k p (Except.ok stats) now ds = (p, [Eff.fetch p.playerName])) := by
  have hiff := classify_changed_iff p.rankScore stats.rankScore cfg.minValidScore
    cfg.maxScoreDropThreshold
  unfold reconcilePlayer
  simp only [hbl, Bool.false_eq_true, if_false]
  constructor
  · intro hc
    rw [if_pos (hiff.mp hc)]
  · intro hc
    rw [if_neg fun hcond => hc (hiff.mpr hcond)]

/-- Skipping `k` consecutive retried transient failures: the loop reaches
attempt `a + k` having accumulated exactly the backoff delays of the `k`
retry iterations in between. -/
theorem retryFrom_skip (outcomes : Nat → Outcome) (maxRetries : Nat) :
    ∀ (k a : Nat), a + k ≤ maxRetries →
      (∀ j, a ≤ j → j < a + k → ∃ id, outcomes j = Outcome.failure true id) →
      retryFrom outcomes maxRetries a =
        ((retryFrom outcomes maxRetries (a + k)).1,
         expectedDelays a k ++ (retryFrom outcomes maxRetries (a + k)).2) := by
  intro k
  induction k with
  | zero => intro a _ _; simp [expectedDelays]
  | succ k ih =>
    intro a hk hlead
    obtain ⟨id, hid⟩ := hlead a (Nat.le_refl a) (by omega)
    have ha : a < maxRetries := by omega
    have hstep : retryFrom outcomes maxRetries a =
        ((retryFrom outcomes maxRetries (a + 1)).1,
         ownDelay a ++ (retryFrom outcomes maxRetries (a + 1)).2) := by
      rw [retryFrom, hid]
      simp [ha]
    have hshift : a + (k + 1) = (a + 1) + k := by omega
    have ihv := ih (a + 1) (by omega)
      (fun j hj1 hj2 => hlead j (by omega) (by omega))
    rw [hstep, ihv, hshift]
    simp [expectedDelays, List.append_assoc]

/-- The delays of `k` retry iterations starting at attempt 0, together with
the wait of the terminal attempt `k`, form the escalating pattern
`[2^1*1000, …, 2^k*1000]`. -/
theorem expectedDelays_closed :
    ∀ k, expectedDelays 0 k ++ ownDelay k = (List.range k).map fun i => 2 ^ (i + 1) * 1000 := by
  have hsnoc : ∀ k a, expectedDelays a (k + 1) = expectedDelays a k ++ ownDelay (a + k) := by
    intro k
    induction k with
    | zero => intro a; simp [expectedDelays]
    | succ k ih =>
      intro a
      have h1 : expectedDelays a (k + 1 + 1) = ownDelay a ++ expectedDelays (a + 1) (k + 1) := rfl
      rw [h1, ih (a + 1)]
      have h2 : a + 1 + k = a + (k + 1) := by omega
      rw [h2]
      simp [expectedDelays, List.append_assoc]
  intro k
  induction k with
  | zero => simp [expectedDelays, ownDelay]
  | succ k ih =>
    rw [hsnoc k 0]
    simp only [Nat.zero_add]
    rw [List.append_assoc, ← List.append_assoc, ih]
    rw [List.range_succ, List.map_append]
    simp [ownDelay]

/-- C2: for every sequence of request outcomes beginning with `k` transient
failures (all of which the loop retries), the fetch routine waits
`2^attempt * 1000` ms before retry attempt `attempt` (the pattern
`2s, 4s, 8s` for the default budget of 3 retries); a success at attempt `k`
completes with exactly those delays; a fatal (non-retriable) failure at
attempt `k` is re-raised immediately with no further delay and no further
attempt; and when the budget is exhausted (`k = maxRetries`) a transient
failure at attempt `k` is re-raised as the final failure. -/
theorem C2_retry_policy (outcomes : Nat → Outcome) (maxRetries k : Nat)
    (hk : k ≤ maxRetries)
    (hlead : ∀ j, j < k → ∃ id, outcomes j = Outcome.failure true id) :
    (∀ v, outcomes k = Outcome.success v →
        apiRequestWithRetry outcomes maxRetries =
          (Except.ok v, (List.range k).map fun i => 2 ^ (i + 1) * 1000)) ∧
    (∀ id, outcomes k = Outcome.failure false id →
        apiRequestWithRetry outcomes maxRetries =
          (Except.error (false, id), (List.range k).map fun i => 2 ^ (i + 1) * 1000)) ∧
    (∀ id, k = maxRetries → outcomes k = Outcome.failure true id →
        apiRequestWithRetry outcomes maxRetries =
          (Except.error (true, id), (List.range k).map fun i => 2 ^ (i + 1) * 1000)) := by
  have hskip := retryFrom_skip outcomes maxRetries k 0 (by omega)
    (fun j hj1 hj2 => hlead j (by omega))
  simp only [Nat.zero_add] at hskip
  refine ⟨?_, ?_, ?_⟩
  · intro v hv
    have hterm : retryFrom outcomes maxRetries k = (Except.ok v, ownDelay k) := by
      rw [retryFrom, hv]
    rw [apiRequestWithRetry, hskip, hterm, expectedDelays_closed]
  · intro id hid
    have hterm : retryFrom outcomes maxRetries k = (Except.error (false, id), ownDelay k) := by
      rw [retryFrom, hid]
      simp
    rw [apiRequestWithRetry, hskip, hterm, expectedDelays_closed]
  · intro id hkm hid
    have hterm : retryFrom outcomes maxRetries k = (Except.error (true, id), ownDelay k) := by
      rw [retryFrom, hid]
      simp [hkm]
    rw [apiRequestWithRetry, hskip, hterm, expectedDelays_closed]

/-- Witness for C2: three transient failures then a success, with the default
budget of 3 retries, succeed after exactly the backoff delays 2s, 4s, 8s. -/
theorem C2_retry_policy_witness :
    apiRequestWithRetry outEx 3 = (Except.ok 7, [2000, 4000, 8000]) := by
  have h := (C2_retry_policy outEx 3 3 (by decide)
    (fun j hj => ⟨j, by simp [outEx, hj]⟩)).1 7 (by decide)
  simpa using h

/-- Witness for C1 at a concrete changed observation. -/
theorem C1_delta_classifier_witness :
    reconcilePlayer cfgEx "g1" "k" playerEx (Except.ok statsEx) 7 "d" =
      (applyStats playerEx statsEx 7,
       [Eff.fetch playerEx.playerName, Eff.mutate "k",
        Eff.notify "g1" (Notification.rankChange
          (buildChangeMessage "d" (applyStats playerEx statsEx 7) playerEx.rankScore
            statsEx.rankScore statsEx)),
        Eff.persist]) :=
  (C1_delta_classifier cfgEx "g1" "k" playerEx statsEx 7 "d" (by decide)).1 (by decide)

/-- Counterexample to C3 as stated: on a concrete `Changed` observation the
reconciliation step does mutate, notify and persist, but the persistence is
NOT followed by the notification — the code notifies first and persists
last, so the claimed mutate-persist-notify order fails. -/
theorem C3_persist_before_notify_false :
    evsEx.any effIsMutate = true ∧ evsEx.any effIsPersist = true ∧
    evsEx.any effIsNotify = true ∧
    occursBeforeB effIsPersist effIsNotify evsEx = false := by decide

/-- C3 (amended): on a `Changed` classification the effects occur in the
order snapshot mutation, then notification attempt, then persistence. -/
theorem C3_amended_order (cfg : Config) (gid k : String) (p : PlayerData)
    (stats : PlayerStats) (now : Nat) (ds : String)
    (hbl : isBlacklisted p.playerName cfg.blacklist = false)
    (hch : classifySpec p.rankScore stats.rankScore cfg.minValidScore cfg.maxScoreDropThreshold =
      RankDelta.Changed) :
    occursBeforeB effIsMutate effIsNotify (reconcilePlayer cfg gid k p (Except.ok stats) now ds).2 =
      true ∧
    occursBeforeB effIsNotify effIsPersist (reconcilePlayer cfg gid k p (Except.ok stats) now ds).2 =
      true := by
  have hcond := (classify_changed_iff p.rankScore stats.rankScore cfg.minValidScore
    cfg.maxScoreDropThreshold).mp hch
  unfold reconcilePlayer
  simp only [hbl, Bool.false_eq_true, if_false]
  rw [if_pos hcond]
  constructor <;> rfl

/-- Witness for the amended C3 at a concrete changed observation. -/
theorem C3_amended_order_witness :
    occursBeforeB effIsMutate effIsNotify
        (reconcilePlayer cfgEx "g3" "k" playerEx (Except.ok statsEx) 7 "d").2 = true ∧
    occursBeforeB effIsNotify effIsPersist
        (reconcilePlayer cfgEx "g3" "k" playerEx (Except.ok statsEx) 7 "d").2 = true :=
  C3_amended_order cfgEx "g3" "k" playerEx statsEx 7 "d" (by decide) (by decide)

/-- C4: the time-annotation regex `/$(\d+:\d+)$$/` of `getPlayerStats` never
matches, so for the activity state `"In match (00:39)"` nothing is stripped:
the whole string fails the translation lookup and passes through verbatim,
although the translation table does translate the base state `"In match"`
(to `"比赛中"`), and the claimed output `"比赛中 (00:39)"` differs from the
actual output. -/
theorem C4_time_suffix_not_stripped :
    (getPlayerStats rawEx4).currentState = "In match (00:39)" ∧
    translate "In match" = "比赛中" ∧
    "In match (00:39)" ≠ "比赛中" ++ " (00:39)" := by decide

/-- Counterexample to C5 as stated: a concrete online player whose raw
activity state is `"online"` (neither in a lobby nor in a match, so
`isInLobbyOrMatch` is false) still gets a current-activity-state line in the
rank-change notification. -/
theorem C5_state_line_without_match :
    (getPlayerStats rawEx5).isInLobbyOrMatch = false ∧
    ((reconcilePlayer cfgEx "g5" "k" playerEx (Except.ok (getPlayerStats rawEx5)) 7 "d").2.any
        effHasStateLine) = true := by decide

/-- C5 (amended): the rank-change notification of the reconciliation loop
contains the current-activity-state line exactly when the player is online
and the translated activity state is non-empty — the pre-game/in-game
(`isInLobbyOrMatch`) restriction is not applied there (it only affects the
`apexrank` query formatter). -/
theorem C5_amended_state_line (ds : String) (player : PlayerData) (oldScore newScore : Int)
    (stats : PlayerStats) :
    MsgLine.stateLine stats.currentState ∈ buildChangeMessage ds player oldScore newScore stats ↔
      (stats.isOnline = "在线" ∧ stats.currentState ≠ "") := by
  by_cases h1 : stats.globalRankPercent ≠ "" ∧ stats.globalRankPercent ≠ "未知" <;>
    by_cases h2 : stats.isOnline = "在线" ∧ stats.selectedLegend ≠ "" <;>
      by_cases h3 : stats.isOnline = "在线" ∧ stats.currentState ≠ "" <;>
        simp [buildChangeMessage, h1, h2, h3]

/-- C6: for a blacklisted name, the query command and the add command return
the blacklist error before any network call (no events at all), and the
reconciliation step skips a tracked player with that display name entirely —
no fetch, no snapshot mutation, no persistence, no notification. -/
theorem C6_blacklist_skips_everywhere (cfg : Config) (name : String)
    (hbl : isBlacklisted name cfg.blacklist = true) :
    (∀ fr, apexrankQuery cfg name fr = (QueryResult.blacklistError name, [])) ∧
    (∀ reg gid fr now, apexrankwatchAdd cfg reg gid name fr now =
      (reg, AddResult.blacklistError, [])) ∧
    (∀ gid k p fr now ds, p.playerName = name →
      reconcilePlayer cfg gid k p fr now ds = (p, [])) := by
  refine ⟨?_, ?_, ?_⟩
  · intro fr
    unfold apexrankQuery
    rw [if_pos hbl]
  · intro reg gid fr now
    unfold apexrankwatchAdd
    rw [if_pos hbl]
  · intro gid k p fr now ds hname
    unfold reconcilePlayer
    rw [hname, if_pos hbl]

/-- Witness for C6 with a concrete blacklist (`"alice, Bob"`) and the
differently-cased name `"ALICE"`. -/
theorem C6_blacklist_witness :
    apexrankQuery cfgB "ALICE" (Except.error ()) = (QueryResult.blacklistError "ALICE", []) ∧
    apexrankwatchAdd cfgB [] "g" "ALICE" (Except.error ()) 0 = ([], AddResult.blacklistError, []) ∧
    reconcilePlayer cfgB "g" "alice" pdAlice (Except.error ()) 0 "d" = (pdAlice, []) := by
  have h := C6_blacklist_skips_everywhere cfgB "ALICE" (by decide)
  exact ⟨h.1 _, h.2.1 [] "g" _ 0, h.2.2 "g" "alice" pdAlice _ 0 "d" rfl⟩

/-- A successful association-list lookup locates a member of the list. -/
theorem alookup_mem {α : Type} {k : String} {v : α} :
    ∀ {l : List (String × α)}, alookup k l = some v → (k, v) ∈ l := by
  intro l
  induction l with
  | nil => intro h; simp [alookup] at h
  | cons p rest ih =>
    intro h
    rw [alookup] at h
    by_cases hk : p.1 = k
    · rw [if_pos hk] at h
      injection h with h2
      have hkv : (k, v) = p := by rw [← hk, ← h2]
      rw [hkv]
      exact List.mem_cons_self p rest
    · rw [if_neg hk] at h
      exact List.mem_cons_of_mem p (ih h)

/-- Members of an overwrite-in-place are the new binding or old members. -/
theorem mem_mapReplace {α : Type} {l : List (String × α)} {k : String} {v : α} {q : String × α} :
    q ∈ mapReplace l k v → q = (k, v) ∨ q ∈ l := by
  intro hq
  obtain ⟨p, hp, hpq⟩ := List.mem_map.mp hq
  by_cases hk : p.1 = k
  · rw [if_pos hk] at hpq
    exact Or.inl hpq.symm
  · rw [if_neg hk] at hpq
    exact Or.inr (hpq ▸ hp)

/-- Members of a property write are the new binding or old members. -/
theorem mem_setEntry {α : Type} {l : List (String × α)} {k : String} {v : α} {q : String × α} :
    q ∈ setEntry l k v → q = (k, v) ∨ q ∈ l := by
  intro hq
  unfold setEntry at hq
  by_cases hs : (alookup k l).isSome
  · rw [if_pos hs] at hq
    exact mem_mapReplace hq
  · rw [if_neg hs] at hq
    rcases List.mem_append.mp hq with h | h
    · exact Or.inr h
    · simp at h
      exact Or.inl h

/-- Deleting a key removes every binding of that key. -/
theorem alookup_removeEntry_self {α : Type} (l : List (String × α)) (k : String) :
    alookup k (removeEntry l k) = none := by
  induction l with
  | nil => rfl
  | cons p rest ih =>
    rw [removeEntry, List.filter_cons]
    by_cases hk : p.1 = k
    · rw [if_neg (by simp [hk])]
      exact ih
    · rw [if_pos (by simp [hk])]
      rw [alookup, if_neg hk]
      exact ih

/-- C7: assuming the invariant that no group record has an empty player map,
every `apexrankremove` preserves it — in particular removing the last tracked
player of a group deletes the group's whole entry — and a successful removal
persists the registry. -/
theorem C7_no_empty_groups (reg : Registry) (gid name : String)
    (hinv : ∀ gp ∈ reg, gp.2.players ≠ []) :
    (∀ gp ∈ (apexrankremove reg gid name).1, gp.2.players ≠ []) ∧
    ((apexrankremove reg gid name).2.1 = RemoveResult.removed →
      Eff.persist ∈ (apexrankremove reg gid name).2.2) ∧
    (∀ g, alookup gid reg = some g →
      removeEntry g.players (String.mk (lowerChars name)) = [] →
      alookup gid (apexrankremove reg gid name).1 = none) := by
  cases hg : alookup gid reg with
  | none =>
    have hr : apexrankremove reg gid name = (reg, RemoveResult.notFound, []) := by
      simp [apexrankremove, hg]
    rw [hr]
    refine ⟨hinv, ?_, ?_⟩
    · intro h
      cases h
    · intro g hgg
      cases hgg
  | some group =>
    cases hp : alookup (String.mk (lowerChars name)) group.players with
    | none =>
      have hr : apexrankremove reg gid name = (reg, RemoveResult.notFound, []) := by
        simp [apexrankremove, hg, hp]
      rw [hr]
      refine ⟨hinv, ?_, ?_⟩
      · intro h
        cases h
      · intro g hgg hempty
        cases hgg
        have hmem := hinv (gid, group) (alookup_mem hg)
        cases hplayers : group.players with
        | nil => exact absurd hplayers hmem
        | cons q rest =>
          rw [hplayers] at hempty
          rw [removeEntry, List.filter_cons] at hempty
          by_cases hq : q.1 = String.mk (lowerChars name)
          · rw [hplayers] at hp
            rw [alookup, if_pos hq] at hp
            cases hp
          · rw [if_pos (by simp [hq])] at hempty
            cases hempty
    | some pd =>
      by_cases hempty : removeEntry group.players (String.mk (lowerChars name)) = []
      · have hr : apexrankremove reg gid name =
            (removeEntry reg gid, RemoveResult.removed, [Eff.persist]) := by
          simp [apexrankremove, hg, hp, hempty]
        rw [hr]
        refine ⟨?_, ?_, ?_⟩
        · intro gp hgp
          exact hinv gp (List.mem_of_mem_filter hgp)
        · intro _
          exact List.mem_singleton.mpr rfl
        · intro g hgg _
          cases hgg
          exact alookup_removeEntry_self reg gid
      · have hr : apexrankremove reg gid name =
            (setEntry reg gid
               { group with players := removeEntry group.players (String.mk (lowerChars name)) },
             RemoveResult.removed, [Eff.persist]) := by
          simp [apexrankremove, hg, hp, hempty]
        rw [hr]
        refine ⟨?_, ?_, ?_⟩
        · intro gp hgp
          rcases mem_setEntry hgp with h | h
          · rw [h]
            exact hempty
          · exact hinv gp h
        · intro _
          exact List.mem_singleton.mpr rfl
        · intro g hgg habs
          cases hgg
          exact absurd habs hempty

/-- Witness for C7: removing the only player (by a differently-cased name)
deletes the whole group entry and persists. -/
theorem C7_no_empty_groups_witness :
    (∀ gp ∈ (apexrankremove regW7 "g" "M").1, gp.2.players ≠ []) ∧
    ((apexrankremove regW7 "g" "M").2.1 = RemoveResult.removed →
      Eff.persist ∈ (apexrankremove regW7 "g" "M").2.2) ∧
    (∀ g, alookup "g" regW7 = some g →
      removeEntry g.players (String.mk (lowerChars "M")) = [] →
      alookup "g" (apexrankremove regW7 "g" "M").1 = none) :=
  C7_no_empty_groups regW7 "g" "M" (by decide)

/-- The blacklist test only depends on the lowercased name. -/
theorem isBlacklisted_congr (n1 n2 bl : String) (h : lowerChars n1 = lowerChars n2) :
    isBlacklisted n1 bl = isBlacklisted n2 bl := by
  unfold isBlacklisted
  rw [h]

/-- Appending past keys that miss: lookup continues in the suffix. -/
theorem alookup_append_of_none {α : Type} {k : String} :
    ∀ {l : List (String × α)} (l2 : List (String × α)), alookup k l = none →
      alookup k (l ++ l2) = alookup k l2 := by
  intro l
  induction l with
  | nil => intro l2 _; rfl
  | cons p rest ih =>
    intro l2 h
    rw [alookup] at h
    by_cases hk : p.1 = k
    · rw [if_pos hk] at h
      cases h
    · rw [if_neg hk] at h
      rw [List.cons_append, alookup, if_neg hk]
      exact ih l2 h

/-- Overwriting an existing key makes lookup return the new value. -/
theorem alookup_mapReplace_self {α : Type} {k : String} (v : α) :
    ∀ {l : List (String × α)}, (alookup k l).isSome → alookup k (mapReplace l k v) = some v := by
  intro l
  induction l with
  | nil => intro h; simp [alookup] at h
  | cons p rest ih =>
    intro h
    unfold mapReplace
    rw [List.map_cons]
    by_cases hk : p.1 = k
    · rw [if_pos hk]
      rw [alookup, if_pos rfl]
    · rw [if_neg hk]
      rw [alookup, if_neg hk]
      rw [alookup, if_neg hk] at h
      exact ih h

/-- A property write makes lookup return the written value. -/
theorem alookup_setEntry_self {α : Type} (l : List (String × α)) (k : String) (v : α) :
    alookup k (setEntry l k v) = some v := by
  unfold setEntry
  by_cases hs : (alookup k l).isSome
  · rw [if_pos hs]
    exact alookup_mapReplace_self v hs
  · rw [if_neg hs]
    have hn : alookup k l = none := by
      cases hh : alookup k l
      · rfl
      · rw [hh] at hs
        simp at hs
    rw [alookup_append_of_none _ hn]
    rw [alookup, if_pos rfl]

/-- A key that lookup misses has no binding at all. -/
theorem alookup_none_countP {α : Type} (k : String) :
    ∀ (l : List (String × α)), alookup k l = none →
      (l.countP fun kp => decide (kp.1 = k)) = 0 := by
  intro l
  induction l with
  | nil => intro _; rfl
  | cons p rest ih =>
    intro h
    rw [alookup] at h
    by_cases hk : p.1 = k
    · rw [if_pos hk] at h
      cases h
    · rw [if_neg hk] at h
      rw [List.countP_cons]
      simp [hk, ih h]

/-- Writing a fresh key yields exactly one binding of that key. -/
theorem countP_setEntry_new {α : Type} (l : List (String × α)) (k : String) (v : α)
    (h : alookup k l = none) :
    ((setEntry l k v).countP fun kp => decide (kp.1 = k)) = 1 := by
  unfold setEntry
  rw [if_neg (by simp [h])]
  rw [List.countP_append, alookup_none_countP k l h]
  simp

/-- C8: adding the same player twice (under a successful valid fetch both
times, with any casing the second time) succeeds first and is rejected as
already tracked second; the second call leaves the registry untouched, and
the group holds exactly one binding for the player, keyed by the lowercased
name and holding the snapshot of the first fetch. -/
theorem C8_add_idempotent (cfg : Config) (reg : Registry) (gid name1 name2 : String)
    (stats1 stats2 : PlayerStats) (now1 now2 : Nat)
    (hbl : isBlacklisted name1 cfg.blacklist = false)
    (hcase : lowerChars name1 = lowerChars name2)
    (hv1 : ¬stats1.rankScore < cfg.minValidScore)
    (hv2 : ¬stats2.rankScore < cfg.minValidScore)
    (hnot : ∀ g, alookup gid reg = some g →
      alookup (String.mk (lowerChars name1)) g.players = none) :
    ((apexrankwatchAdd cfg reg gid name1 (Except.ok stats1) now1).2.1 = AddResult.ok) ∧
    ((apexrankwatchAdd cfg (apexrankwatchAdd cfg reg gid name1 (Except.ok stats1) now1).1 gid
        name2 (Except.ok stats2) now2).2.1 = AddResult.alreadyTracked) ∧
    ((apexrankwatchAdd cfg (apexrankwatchAdd cfg reg gid name1 (Except.ok stats1) now1).1 gid
        name2 (Except.ok stats2) now2).1 =
      (apexrankwatchAdd cfg reg gid name1 (Except.ok stats1) now1).1) ∧
    (∀ g, alookup gid (apexrankwatchAdd cfg reg gid name1 (Except.ok stats1) now1).1 = some g →
      (g.players.countP fun kp => decide (kp.1 = String.mk (lowerChars name1))) = 1 ∧
      alookup (String.mk (lowerChars name1)) g.players =
        some (mkPlayerData name1 stats1 now1)) := by
  have hbl2 : isBlacklisted name2 cfg.blacklist = false := by
    rw [← isBlacklisted_congr name1 name2 cfg.blacklist hcase]
    exact hbl
  have hkey2 : String.mk (lowerChars name2) = String.mk (lowerChars name1) := by rw [hcase]
  obtain ⟨group, hgroup, hnone⟩ :
      ∃ group : GroupSub,
        (alookup gid (if (alookup gid reg).isSome then reg
            else setEntry reg gid ⟨gid, []⟩)).getD ⟨gid, []⟩ = group ∧
        alookup (String.mk (lowerChars name1)) group.players = none := by
    cases hgr : alookup gid reg with
    | none =>
      refine ⟨⟨gid, []⟩, ?_, rfl⟩
      rw [if_neg (by simp [hgr]), alookup_setEntry_self]
      rfl
    | some g =>
      refine ⟨g, ?_, hnot g hgr⟩
      rw [if_pos (by simp [hgr]), hgr]
      rfl
  have hadd1 : apexrankwatchAdd cfg reg gid name1 (Except.ok stats1) now1 =
      (setEntry (if (alookup gid reg).isSome then reg else setEntry reg gid ⟨gid, []⟩) gid
         { group with players := (setEntry group.players (String.mk (lowerChars name1))
             (mkPlayerData name1 stats1 now1)) },
       AddResult.ok,
       [Eff.fetch name1, Eff.persist, Eff.notify gid (Notification.addConfirm name1)]) := by
    unfold apexrankwatchAdd
    simp only [hbl, Bool.false_eq_true, if_false]
    rw [if_neg hv1]
    rw [hgroup, hnone]
    simp
  have hlook1 : alookup gid (apexrankwatchAdd cfg reg gid name1 (Except.ok stats1) now1).1 =
      some { group with players := (setEntry group.players (String.mk (lowerChars name1))
          (mkPlayerData name1 stats1 now1)) } := by
    rw [hadd1]
    exact alookup_setEntry_self _ _ _
  have hadd2 : ∀ reg2 : Registry,
      alookup gid reg2 = some { group with players := (setEntry group.players
          (String.mk (lowerChars name1)) (mkPlayerData name1 stats1 now1)) } →
      apexrankwatchAdd cfg reg2 gid name2 (Except.ok stats2) now2 =
        (reg2, AddResult.alreadyTracked, [Eff.fetch name2]) := by
    intro reg2 hl
    unfold apexrankwatchAdd
    simp only [hbl2, Bool.false_eq_true, if_false]
    rw [if_neg hv2]
    simp only [hkey2, hl, Option.isSome_some, Option.getD_some, if_true,
      alookup_setEntry_self]
  refine ⟨?_, ?_, ?_, ?_⟩
  · rw [hadd1]
  · rw [hadd2 _ hlook1]
  · rw [hadd2 _ hlook1]
  · intro g hg
    rw [hlook1] at hg
    injection hg with hg2
    rw [← hg2]
    exact ⟨countP_setEntry_new group.players _ _ hnone, alookup_setEntry_self _ _ _⟩

/-- Witness for C8: the default configuration, an empty registry, and the
names `"Moeneri"` / `"MOENERI"`. -/
theorem C8_add_idempotent_witness :
    ((apexrankwatchAdd cfgEx [] "g" "Moeneri" (Except.ok statsW8) 1).2.1 = AddResult.ok) ∧
    ((apexrankwatchAdd cfgEx (apexrankwatchAdd cfgEx [] "g" "Moeneri" (Except.ok statsW8) 1).1 "g"
        "MOENERI" (Except.ok statsW8) 2).2.1 = AddResult.alreadyTracked) := by
  have h := C8_add_idempotent cfgEx [] "g" "Moeneri" "MOENERI" statsW8 statsW8 1 2
    (by decide) (by decide) (by decide) (by decide)
    (fun g hg => by simp [alookup] at hg)
  exact ⟨h.1, h.2.1⟩

/-- A failed (or skipped) per-player step leaves the snapshot untouched. -/
theorem reconcilePlayer_error_fst (cfg : Config) (gid k : String) (p : PlayerData)
    (e : Unit) (now : Nat) (ds : String) :
    (reconcilePlayer cfg gid k p (Except.error e) now ds).1 = p := by
  unfold reconcilePlayer
  by_cases hb : isBlacklisted p.playerName cfg.blacklist = true
  · rw [if_pos hb]
  · rw [if_neg hb]

/-- The post-state of one group of a pass, player by player. -/
theorem reconcileGroup_fst (cfg : Config) (gid : String)
    (fetch : String → Except Unit PlayerStats) (now : Nat) (ds : String) :
    ∀ ps : List (String × PlayerData),
      (reconcileGroup cfg gid fetch now ds ps).1 =
        ps.map fun kp =>
          (kp.1, (reconcilePlayer cfg gid kp.1 kp.2 (fetch kp.2.playerName) now ds).1) := by
  intro ps
  induction ps with
  | nil => rfl
  | cons kp rest ih => simp [reconcileGroup, ih]

/-- The post-state of a full pass, group by group. -/
theorem reconcilePass_fst (cfg : Config) (fetch : String → Except Unit PlayerStats)
    (now : Nat) (ds : String) :
    ∀ reg : Registry,
      (reconcilePass cfg fetch now ds reg).1 =
        reg.map fun gp =>
          (gp.1, { gp.2 with players := (reconcileGroup cfg gp.1 fetch now ds gp.2.players).1 }) := by
  intro reg
  induction reg with
  | nil => rfl
  | cons gp rest ih => simp [reconcilePass, ih]

/-- C9: when the fetch for one player fails, that player's snapshot survives
the pass unchanged while every other player is processed exactly as it would
be under any oracle that agrees away from the failing player — one player's
fetch failure neither aborts the pass nor affects any other player. -/
theorem C9_fetch_failure_isolated (cfg : Config)
    (fetch fetch2 : String → Except Unit PlayerStats) (pname : String)
    (now : Nat) (ds : String) (reg : Registry)
    (hfail : fetch pname = Except.error ())
    (hagree : ∀ n, n ≠ pname → fetch n = fetch2 n) :
    (reconcilePass cfg fetch now ds reg).1 =
      reg.map fun gp =>
        (gp.1, { gp.2 with players := gp.2.players.map fun kp =>
          if kp.2.playerName = pname then kp
          else (kp.1, (reconcilePlayer cfg gp.1 kp.1 kp.2 (fetch2 kp.2.playerName) now ds).1) }) := by
  rw [reconcilePass_fst]
  apply List.map_congr_left
  intro gp _
  rw [reconcileGroup_fst]
  have hmaps : (gp.2.players.map fun kp =>
        (kp.1, (reconcilePlayer cfg gp.1 kp.1 kp.2 (fetch kp.2.playerName) now ds).1)) =
      gp.2.players.map fun kp =>
        if kp.2.playerName = pname then kp
        else (kp.1, (reconcilePlayer cfg gp.1 kp.1 kp.2 (fetch2 kp.2.playerName) now ds).1) := by
    apply List.map_congr_left
    intro kp _
    by_cases hname : kp.2.playerName = pname
    · rw [if_pos hname, hname, hfail, reconcilePlayer_error_fst]
    · rw [if_neg hname, hagree kp.2.playerName hname]
  rw [hmaps]

/-- Witness for C9: a two-player group where the fetch for `"bad"` fails;
`"bad"` keeps its old snapshot and `"ok"` is updated. -/
theorem C9_fetch_failure_isolated_witness :
    (reconcilePass cfgEx fetchW 3 "d" regW).1 =
      [("g", { groupId := "g", players := [("bad", pdBad), ("ok", applyStats pdOk statsEx 3)] })] := by
  have h := C9_fetch_failure_isolated cfgEx fetchW fetchW2 "bad" 3 "d" regW
    (by simp [fetchW])
    (fun n hn => by simp [fetchW, fetchW2, hn])
  rw [h]
  decide

/-- Every snapshot stored by the add command is an old snapshot or the
freshly fetched one, and the fresh one was gated by `minValidScore`. -/
theorem add_preserves_nonneg (cfg : Config) (reg : Registry) (gid name : String)
    (fr : Except Unit PlayerStats) (now : Nat)
    (hmin : 0 ≤ cfg.minValidScore)
    (ih : ∀ gp ∈ reg, ∀ kp ∈ gp.2.players, 0 ≤ kp.2.rankScore) :
    ∀ gp ∈ (apexrankwatchAdd cfg reg gid name fr now).1, ∀ kp ∈ gp.2.players,
      0 ≤ kp.2.rankScore := by
  by_cases hb : isBlacklisted name cfg.blacklist = true
  · have hr : (apexrankwatchAdd cfg reg gid name fr now).1 = reg := by
      unfold apexrankwatchAdd
      rw [if_pos hb]
    rw [hr]
    exact ih
  · have hb2 : isBlacklisted name cfg.blacklist = false := by
      simpa using hb
    cases fr with
    | error e =>
      have hr : (apexrankwatchAdd cfg reg gid name (Except.error e) now).1 = reg := by
        unfold apexrankwatchAdd
        rw [if_neg hb]
      rw [hr]
      exact ih
    | ok stats =>
      by_cases hv : stats.rankScore < cfg.minValidScore
      · have hr : (apexrankwatchAdd cfg reg gid name (Except.ok stats) now).1 = reg := by
          unfold apexrankwatchAdd
          simp only [hb2, Bool.false_eq_true, if_false]
          rw [if_pos hv]
        rw [hr]
        exact ih
      · have hscore : 0 ≤ (mkPlayerData name stats now).rankScore := by
          simp only [mkPlayerData]
          omega
        cases hgr : alookup gid reg with
        | some g =>
          by_cases ha : (alookup (String.mk (lowerChars name)) g.players).isSome = true
          · have h1 : (apexrankwatchAdd cfg reg gid name (Except.ok stats) now).1 = reg := by
              unfold apexrankwatchAdd
              simp only [hb2, Bool.false_eq_true, if_false]
              rw [if_neg hv]
              simp [hgr, ha]
            rw [h1]
            exact ih
          · have h1 : (apexrankwatchAdd cfg reg gid name (Except.ok stats) now).1 =
                setEntry reg gid { g with players := (setEntry g.players
                  (String.mk (lowerChars name)) (mkPlayerData name stats now)) } := by
              unfold apexrankwatchAdd
              simp only [hb2, Bool.false_eq_true, if_false]
              rw [if_neg hv]
              simp [hgr, ha]
            rw [h1]
            intro gp hgp kp hkp
            rcases mem_setEntry hgp with hgp1 | hgp1
            · have hkp1 : kp ∈ setEntry g.players (String.mk (lowerChars name))
                  (mkPlayerData name stats now) := by
                rw [hgp1] at hkp
                exact hkp
              rcases mem_setEntry hkp1 with hkp2 | hkp2
              · rw [hkp2]
                exact hscore
              · exact ih (gid, g) (alookup_mem hgr) kp hkp2
            · exact ih gp hgp1 kp hkp
        | none =>
          have h1 : (apexrankwatchAdd cfg reg gid name (Except.ok stats) now).1 =
              setEntry (setEntry reg gid ⟨gid, []⟩) gid
                { groupId := gid, players := (setEntry []
                  (String.mk (lowerChars name)) (mkPlayerData name stats now)) } := by
            unfold apexrankwatchAdd
            simp only [hb2, Bool.false_eq_true, if_false]
            rw [if_neg hv]
            simp [hgr, alookup_setEntry_self, alookup]
          rw [h1]
          intro gp hgp kp hkp
          rcases mem_setEntry hgp with hgp1 | hgp1
          · have hkp1 : kp ∈ setEntry [] (String.mk (lowerChars name))
                (mkPlayerData name stats now) := by
              rw [hgp1] at hkp
              exact hkp
            rcases mem_setEntry hkp1 with hkp2 | hkp2
            · rw [hkp2]
              exact hscore
            · cases hkp2
          · rcases mem_setEntry hgp1 with hgp2 | hgp2
            · have hkp1 : kp ∈ ([] : List (String × PlayerData)) := by
                rw [hgp2] at hkp
                exact hkp
              cases hkp1
            · exact ih gp hgp2 kp hkp

/-- Every snapshot surviving a remove was already stored before it. -/
theorem remove_mem (reg : Registry) (gid name : String) :
    ∀ gp ∈ (apexrankremove reg gid name).1, ∀ kp ∈ gp.2.players,
      ∃ gp0 ∈ reg, kp ∈ gp0.2.players := by
  cases hg : alookup gid reg with
  | none =>
    have hr : (apexrankremove reg gid name).1 = reg := by
      simp [apexrankremove, hg]
    rw [hr]
    intro gp hgp kp hkp
    exact ⟨gp, hgp, hkp⟩
  | some group =>
    cases hp : alookup (String.mk (lowerChars name)) group.players with
    | none =>
      have hr : (apexrankremove reg gid name).1 = reg := by
        simp [apexrankremove, hg, hp]
      rw [hr]
      intro gp hgp kp hkp
      exact ⟨gp, hgp, hkp⟩
    | some pd =>
      by_cases hempty : removeEntry group.players (String.mk (lowerChars name)) = []
      · have hr : (apexrankremove reg gid name).1 = removeEntry reg gid := by
          simp [apexrankremove, hg, hp, hempty]
        rw [hr]
        intro gp hgp kp hkp
        exact ⟨gp, List.mem_of_mem_filter hgp, hkp⟩
      · have hr : (apexrankremove reg gid name).1 = setEntry reg gid
            { group with players := removeEntry group.players (String.mk (lowerChars name)) } := by
          simp [apexrankremove, hg, hp, hempty]
        rw [hr]
        intro gp hgp kp hkp
        rcases mem_setEntry hgp with hgp1 | hgp1
        · rw [hgp1] at hkp
          exact ⟨(gid, group), alookup_mem hg, List.mem_of_mem_filter hkp⟩
        · exact ⟨gp, hgp1, hkp⟩

/-- A reconciliation step never stores a score below `minValidScore`. -/
theorem reconcilePlayer_fst_rankScore (cfg : Config) (gid k : String) (p : PlayerData)
    (fr : Except Unit PlayerStats) (now : Nat) (ds : String)
    (hmin : 0 ≤ cfg.minValidScore) (hp : 0 ≤ p.rankScore) :
    0 ≤ (reconcilePlayer cfg gid k p fr now ds).1.rankScore := by
  unfold reconcilePlayer
  split
  · exact hp
  · split
    · exact hp
    · dsimp only
      split
      · next hcond =>
        have h1 := hcond.1
        simp only [applyStats]
        omega
      · exact hp

/-- A reconciliation pass preserves non-negativity of all stored scores. -/
theorem reconcile_preserves_nonneg (cfg : Config)
    (fetch : String → Except Unit PlayerStats) (now : Nat) (ds : String) (reg : Registry)
    (hmin : 0 ≤ cfg.minValidScore)
    (ih : ∀ gp ∈ reg, ∀ kp ∈ gp.2.players, 0 ≤ kp.2.rankScore) :
    ∀ gp ∈ (reconcilePass cfg fetch now ds reg).1, ∀ kp ∈ gp.2.players,
      0 ≤ kp.2.rankScore := by
  rw [reconcilePass_fst]
  intro gp hgp kp hkp
  obtain ⟨gp0, hgp0, hgpeq⟩ := List.mem_map.mp hgp
  rw [← hgpeq] at hkp
  rw [reconcileGroup_fst] at hkp
  obtain ⟨kp0, hkp0, hkpeq⟩ := List.mem_map.mp hkp
  rw [← hkpeq]
  exact reconcilePlayer_fst_rankScore cfg gp0.1 kp0.1 kp0.2 (fetch kp0.2.playerName) now ds hmin
    (ih gp0 hgp0 kp0 hkp0)

/-- C10 (amended): provided the configured `minValidScore` is non-negative
(as the default 1 is), every stored snapshot in every registry state
reachable from the empty registry via add, remove and reconciliation has a
non-negative rank score. -/
theorem C10_amended_nonneg (cfg : Config) (reg : Registry)
    (hmin : 0 ≤ cfg.minValidScore) (hr : Reach cfg reg) :
    ∀ gp ∈ reg, ∀ kp ∈ gp.2.players, 0 ≤ kp.2.rankScore := by
  induction hr with
  | empty => intro gp hgp; cases hgp
  | add reg0 gid name fr now _ ih => exact add_preserves_nonneg cfg reg0 gid name fr now hmin ih
  | remove reg0 gid name _ ih =>
    intro gp hgp kp hkp
    obtain ⟨gp0, hgp0, hkp0⟩ := remove_mem reg0 gid name gp hgp kp hkp
    exact ih gp0 hgp0 kp hkp0
  | reconcile reg0 fetch now ds _ ih =>
    exact reconcile_preserves_nonneg cfg fetch now ds reg0 hmin ih

/-- Counterexample to C10 as stated: with the (schema-permitted) negative
`minValidScore` of `cfgNeg` and an observation carrying rank score `-5`, a
single add from the empty registry reaches a state storing a negative rank
score. -/
theorem C10_negative_score_reachable :
    Reach cfgNeg regNeg ∧
    ∃ gp ∈ regNeg, ∃ kp ∈ gp.2.players, kp.2.rankScore < 0 := by
  constructor
  · exact Reach.add [] "g" "p" (Except.ok (getPlayerStats rawNeg)) 0 Reach.empty
  · decide

/-- Witness for the amended C10 at the registry produced by one add under
the default configuration. -/
theorem C10_amended_nonneg_witness : 0 ≤ (mkPlayerData "p" statsW8 0).rankScore := by
  have h := C10_amended_nonneg cfgEx regW10 (by decide)
    (Reach.add [] "g" "p" (Except.ok statsW8) 0 Reach.empty)
  exact h ("g", { groupId := "g", players := [("p", mkPlayerData "p" statsW8 0)] }) (by decide)
    ("p", mkPlayerData "p" statsW8 0) (by decide)

end ApexRankWatch
